import Mathlib

/-
  Verification of the HanziMaster-Flashcard deck-ingestion pipeline and
  review-session state machine, as a shallow embedding of the TypeScript
  source (`src/App.tsx`, `components/DeckGenerator.tsx`,
  `services/geminiService.ts`, `types.ts`).

  JavaScript runtime values that flow through the untyped ingestion code are
  modelled by the inductive `Js`; the typed records of `types.ts` are the
  structures `Example`, `FlashcardData` and `Deck`.
-/

/-! ## JavaScript values -/

/-- A JavaScript value as it occurs in the ingestion pipeline: the result of
`JSON.parse` (never `undefined`) or an object built by the normalization code
(whose fields can hold `undefined`). -/
inductive Js where
  | undefined
  | null
  | bool (b : Bool)
  | num (n : Int)
  | str (s : String)
  | arr (elems : List Js)
  | obj (fields : List (String × Js))

/-- First binding of a key in an object's field list. `JSON.parse` output and
the objects built by the source never carry a duplicate key, so first match
is the JavaScript field value. -/
def lookupField : List (String × Js) → String → Option Js
  | [], _ => none
  | (k, v) :: rest, key => if k = key then some v else lookupField rest key

/-- Property access `value.key`: an object yields the field or `undefined`;
arrays and primitives carry none of the deck fields, so in JavaScript the
access yields `undefined`. Access on `null`/`undefined` throws in JavaScript
and is modelled at each use site. -/
def getField : Js → String → Js
  | .obj fields, key => (lookupField fields key).getD .undefined
  | _, _ => .undefined

/-- JavaScript truthiness of a value. -/
def truthy : Js → Bool
  | .undefined => false
  | .null => false
  | .bool b => b
  | .num n => n != 0
  | .str s => s != ""
  | .arr _ => true
  | .obj _ => true

/-- JavaScript `a || b`. -/
def jsOr (a b : Js) : Js := if truthy a then a else b

/-- `typeof value === 'object'`, true in JavaScript for objects, arrays and
`null`. -/
def typeofObject : Js → Bool
  | .null => true
  | .arr _ => true
  | .obj _ => true
  | _ => false

def isNull : Js → Bool
  | .null => true
  | _ => false

/-- A value on which property access throws in JavaScript. -/
def isNullish : Js → Bool
  | .null => true
  | .undefined => true
  | _ => false

/-- `typeof value === 'string'`. -/
def isStr : Js → Bool
  | .str _ => true
  | _ => false

/-- `Array.isArray(value)`. -/
def isArr : Js → Bool
  | .arr _ => true
  | _ => false

/-- Write one key of an object's field list in place, appending it when
absent, as assignment in an object literal does. -/
def setField : List (String × Js) → String → Js → List (String × Js)
  | [], key, v => [(key, v)]
  | (k, w) :: rest, key, v =>
      if k = key then (key, v) :: rest else (k, w) :: setField rest key v

/-- The enumerable string-keyed fields a spread `{...base}` copies: those of
an object; arrays and primitives contribute none of the fields the pipeline
reads. -/
def baseFields : Js → List (String × Js)
  | .obj fields => fields
  | _ => []

/-- Object literal `{...base, k1: v1, ..., kn: vn}`: spread the base value's
fields, then write each listed field in order. -/
def spreadUpdate (base : Js) (updates : List (String × Js)) : Js :=
  .obj (updates.foldl (fun fs kv => setField fs kv.1 kv.2) (baseFields base))

/-! ## Decimal rendering of numbers

JavaScript template interpolation `${n}` renders a (nonnegative) number in
decimal. `digitsFuel` is a fuel-indexed little-endian digit list, so that it
is structurally recursive and the kernel can evaluate it; it agrees with
`Nat.digits 10`. -/

def digitsFuel : Nat → Nat → List Nat
  | 0, _ => []
  | fuel + 1, n => if n = 0 then [] else n % 10 :: digitsFuel fuel (n / 10)

/-- Little-endian base-10 digits of `n`. -/
def digitsB10 (n : Nat) : List Nat := digitsFuel n n

/-- `${n}` for a natural number: decimal, no leading zeros, `"0"` for zero. -/
def natStr (n : Nat) : String :=
  if n = 0 then "0" else ⟨((digitsB10 n).map Nat.digitChar).reverse⟩

/-- Left inverse of `Nat.digitChar` on decimal digits. -/
def digitVal (c : Char) : Nat := c.toNat - 48

/-! ## Data model (`types.ts`) -/

/-- `Example` from `types.ts`. -/
structure Example where
  simplified : String
  traditional : String
  pinyin : Option String
  english : String
  deriving DecidableEq

/-- `FlashcardData` from `types.ts`. -/
structure FlashcardData where
  id : String
  simplified : String
  traditional : String
  pinyin : String
  english : String
  examples : List Example
  deriving DecidableEq

/-- `Deck` from `types.ts`. -/
structure Deck where
  title : String
  cards : List FlashcardData
  deriving DecidableEq

/-! ## Export (`saveDeck`)

`saveDeck` serializes the loaded deck with `JSON.stringify(deck, null, 2)`.
At the level of parsed values, feeding that text back through `JSON.parse`
recovers the JSON tree below; `JSON.stringify` omits a field holding
`undefined`, hence the absent-`pinyin` case drops the key. -/

def exampleToJs (e : Example) : Js :=
  .obj ([("simplified", Js.str e.simplified), ("traditional", Js.str e.traditional)] ++
        (match e.pinyin with
         | some p => [("pinyin", Js.str p)]
         | none => []) ++
        [("english", Js.str e.english)])

def cardToJs (c : FlashcardData) : Js :=
  .obj [("id", Js.str c.id),
        ("simplified", Js.str c.simplified),
        ("traditional", Js.str c.traditional),
        ("pinyin", Js.str c.pinyin),
        ("english", Js.str c.english),
        ("examples", Js.arr (c.examples.map exampleToJs))]

/-- The parsed form of the file `saveDeck` exports. -/
def deckToJs (d : Deck) : Js :=
  .obj [("title", Js.str d.title), ("cards", Js.arr (d.cards.map cardToJs))]

/-! ## Typed reading of a delivered deck value

The value handed to `onDeckGenerated` is consumed under the `Deck` type of
`types.ts`; these decoders are that typed reading (strict: every declared
field must have its declared shape, the optional `pinyin` may be absent). -/

def decodeExample (j : Js) : Option Example :=
  match getField j "simplified", getField j "traditional",
        getField j "pinyin", getField j "english" with
  | .str s, .str t, .str p, .str e => some ⟨s, t, some p, e⟩
  | .str s, .str t, .undefined, .str e => some ⟨s, t, none, e⟩
  | _, _, _, _ => none

def decodeExamples : List Js → Option (List Example)
  | [] => some []
  | j :: rest => do
      let e ← decodeExample j
      let es ← decodeExamples rest
      pure (e :: es)

def decodeCard (j : Js) : Option FlashcardData :=
  match getField j "id", getField j "simplified", getField j "traditional",
        getField j "pinyin", getField j "english", getField j "examples" with
  | .str i, .str s, .str t, .str p, .str e, .arr exs =>
      (decodeExamples exs).map fun es => ⟨i, s, t, p, e, es⟩
  | _, _, _, _, _, _ => none

def decodeCards : List Js → Option (List FlashcardData)
  | [] => some []
  | j :: rest => do
      let c ← decodeCard j
      let cs ← decodeCards rest
      pure (c :: cs)

def decodeDeck (j : Js) : Option Deck :=
  match getField j "title", getField j "cards" with
  | .str t, .arr cs => (decodeCards cs).map fun cards => ⟨t, cards⟩
  | _, _ => none

/-- The image of a canonical example under the `processContent` example
mapping: `simplified`/`traditional` as serialized, `pinyin` copied verbatim
(`undefined` when absent), `english` copied verbatim. -/
def normalizedExampleJs (e : Example) : Js :=
  .obj [("simplified", Js.str e.simplified), ("traditional", Js.str e.traditional),
        ("pinyin", match e.pinyin with | some p => Js.str p | none => Js.undefined),
        ("english", Js.str e.english)]

/-! ## Deck schema validator (`isValidDeck`, both DeckGenerator variants) -/

/-- `isValidDeck` from `DeckGenerator.tsx`:
`typeof data === 'object' && data !== null && typeof data.title === 'string'
&& Array.isArray(data.cards)`. -/
def isValidDeck (data : Js) : Bool :=
  typeofObject data && !isNull data &&
    isStr (getField data "title") && isArr (getField data "cards")

/-- Modelled from the spec: the canonical deck shape the Deck Schema
Validator is claimed to decide — a string title and a list of card records,
each carrying simplified, traditional, pinyin and english fields and a list
of example records. -/
def conformsCanonicalDeck (j : Js) : Bool :=
  match j with
  | .obj _ =>
      isStr (getField j "title") &&
      (match getField j "cards" with
       | .arr cs => cs.all fun c =>
           (match c with | .obj _ => true | _ => false) &&
           isStr (getField c "simplified") && isStr (getField c "traditional") &&
           isStr (getField c "pinyin") && isStr (getField c "english") &&
           isArr (getField c "examples")
       | _ => false)
  | _ => false

/-! ## Ingestion outcomes -/

/-- Result of one `generateDeckFromList` call: the external generation either
returns a deck value or throws. -/
inductive GenOutcome where
  | success (deck : Js)
  | failure

/-- Observable outcome of one ingestion entry point: the value handed to
`onDeckGenerated` (if any), whether the generation client was invoked, the
boolean the processor returns, and the error message set on failure. -/
structure PCOut where
  delivered : Option Js
  aiCalled : Bool
  ok : Bool
  errorMsg : Option String

def processFailedMsg : String :=
  "Failed to process content. Ensure it is a valid JSON deck or a list of words."

def invalidJsonMsg : String :=
  "Invalid JSON format. Please upload a saved Deck file or a list of words (array of strings)."

def parseFailedMsg : String := "Failed to parse JSON content."

def fileReadFailedMsg : String := "Failed to read file."

def fetchFailedMsg : String :=
  "Failed to fetch from URL. Note: The URL must be public and allow CORS (e.g. GitHub Raw Gist)."

def generateFailedMsg : String := "Failed to generate deck. Please try again."

/-- An `await generateDeckFromList(...)` call inside a `try` block whose
`catch` sets `catchMsg`: a throw is caught there. -/
def runGeneration (catchMsg : String) (gen : GenOutcome) : PCOut :=
  match gen with
  | .success d => ⟨some d, true, true, none⟩
  | .failure => ⟨none, true, false, some catchMsg⟩

/-- `json.every(item => typeof item === 'string')`. -/
def allStrings (xs : List Js) : Bool := xs.all isStr

/-! ## Card normalization (`processContent` mapping) -/

/-- `id` synthesized by `processContent` for a card without a truthy `id`:
the template literal `imported-${Date.now()}-${i}`. -/
def importedId (now i : Nat) : String :=
  "imported-" ++ natStr now ++ "-" ++ natStr i

/-- The example mapping inside `processContent`:
`{ simplified: ex.simplified || ex.chinese || "", traditional:
ex.traditional || ex.chinese || "", pinyin: ex.pinyin, english: ex.english }`.
Property access on `null`/`undefined` throws, modelled as `none`. -/
def normalizeExample (ex : Js) : Option Js :=
  if isNullish ex then none
  else some (.obj
      [("simplified", jsOr (getField ex "simplified")
          (jsOr (getField ex "chinese") (Js.str ""))),
       ("traditional", jsOr (getField ex "traditional")
          (jsOr (getField ex "chinese") (Js.str ""))),
       ("pinyin", getField ex "pinyin"),
       ("english", getField ex "english")])

/-- `c.examples?.map(ex => ...) || []`: optional chaining turns a missing or
`null` field into `undefined`, which `|| []` replaces by the empty list; on
any other non-array `.map` is not a function and throws. -/
def normalizeExampleList : List Js → Option (List Js)
  | [] => some []
  | ex :: rest => do
      let e ← normalizeExample ex
      let es ← normalizeExampleList rest
      pure (e :: es)

def normalizeExamples : Js → Option (List Js)
  | .undefined => some []
  | .null => some []
  | .arr exs => normalizeExampleList exs
  | _ => none

/-- One card of the `processContent` import mapping:
`{ ...c, examples, id: c.id || 'imported-...' }` (a `null`/`undefined` card
throws on the `c.examples` access). -/
def normalizeCard (now i : Nat) (c : Js) : Option Js :=
  if isNullish c then none
  else
    (normalizeExamples (getField c "examples")).map fun exs =>
      spreadUpdate c
        [("examples", Js.arr exs),
         ("id", jsOr (getField c "id") (Js.str (importedId now i)))]

/-- `json.cards.map((c, i) => ...)` for the import path, propagating a throw
from any card. -/
def normalizeCards (now : Nat) : Nat → List Js → Option (List Js)
  | _, [] => some []
  | i, c :: rest => do
      let c' ← normalizeCard now i c
      let rest' ← normalizeCards now (i + 1) rest
      pure (c' :: rest')

/-! ## Unified content processor (`processContent`, current DeckGenerator) -/

/-- The check `!content || !content.trim()`: the payload is empty or consists
only of whitespace. -/
def isBlank (s : String) : Bool := s.data.all Char.isWhitespace

/-- Step 2 of `processContent`: the payload was not handled as JSON, so it is
treated as a text list for the generation client, unless it is empty or
whitespace-only, in which case the thrown empty-content error lands in the
catch block. -/
def fallThroughPC (content : String) (gen : GenOutcome) : PCOut :=
  if isBlank content then ⟨none, false, false, some processFailedMsg⟩
  else runGeneration processFailedMsg gen

/-- `processContent(content)` from `DeckGenerator.tsx`. `json` is the result
of the inner `JSON.parse(content)` (`none` when it throws), `gen` the outcome
of the `generateDeckFromList` call should one be issued, `now` the
`Date.now()` timestamp. -/
def processContent (content : String) (json : Option Js) (gen : GenOutcome)
    (now : Nat) : PCOut :=
  match json with
  | some j =>
      if truthy j then
        if isValidDeck j then
          match getField j "cards" with
          | .arr cs =>
              match normalizeCards now 0 cs with
              | some cards =>
                  ⟨some (spreadUpdate j [("cards", Js.arr cards)]), false, true, none⟩
              | none => ⟨none, false, false, some processFailedMsg⟩
          | _ =>
              -- unreachable: isValidDeck demands an array `cards` field
              ⟨none, false, false, some processFailedMsg⟩
        else if (match j with | .arr items => allStrings items | _ => false) then
          runGeneration processFailedMsg gen
        else fallThroughPC content gen
      else fallThroughPC content gen
  | none => fallThroughPC content gen

/-! ## JSON-only processor (`processJsonContent`, other DeckGenerator) -/

/-- One card of the `processJsonContent` mapping:
`{ ...c, id: c.id || 'imported-...' }`. -/
def importCardShallow (now i : Nat) (c : Js) : Js :=
  spreadUpdate c [("id", jsOr (getField c "id") (Js.str (importedId now i)))]

def importCardsShallow (now : Nat) : Nat → List Js → List Js
  | _, [] => []
  | i, c :: rest => importCardShallow now i c :: importCardsShallow now (i + 1) rest

/-- `processJsonContent(content)` from the JSON-only DeckGenerator variant;
`json` is the `JSON.parse(content)` result (`none` when it throws, caught as
a parse failure). -/
def processJsonContent (json : Option Js) (gen : GenOutcome) (now : Nat) : PCOut :=
  match json with
  | none => ⟨none, false, false, some parseFailedMsg⟩
  | some j =>
      if isValidDeck j then
        match getField j "cards" with
        | .arr cs =>
            ⟨some (spreadUpdate j [("cards", Js.arr (importCardsShallow now 0 cs))]),
             false, true, none⟩
        | _ => ⟨none, false, false, some parseFailedMsg⟩
      else if (match j with | .arr items => allStrings items | _ => false) then
        runGeneration parseFailedMsg gen
      else ⟨none, false, false, some invalidJsonMsg⟩

/-! ## Generation-response parsing (`parseResponse`, geminiService) -/

/-- `id` stamped by `parseResponse`: the template literal
`card-${Date.now()}-${index}`. -/
def genCardId (now i : Nat) : String :=
  "card-" ++ natStr now ++ "-" ++ natStr i

/-- One card of the `parseResponse` mapping: `{ ...card, id: 'card-...' }` —
the `id` is written unconditionally. -/
def genCard (now i : Nat) (c : Js) : Js :=
  spreadUpdate c [("id", Js.str (genCardId now i))]

def genCards (now : Nat) : Nat → List Js → List Js
  | _, [] => []
  | i, c :: rest => genCard now i c :: genCards now (i + 1) rest

/-- `parseResponse` from `geminiService.ts` applied to the parsed response
body `data`: stamps every card and returns `{ title: data.title, cards }`.
A response without a `cards` array makes `data.cards.map` throw (`none`); an
empty or unparsable `response.text` already threw before this point. -/
def parseResponse (data : Js) (now : Nat) : Option Js :=
  match getField data "cards" with
  | .arr cs =>
      some (.obj [("title", getField data "title"),
                  ("cards", Js.arr (genCards now 0 cs))])
  | _ => none

/-! ## Review session state (`App.tsx`) -/

inductive ScriptMode where
  | simplified
  | traditional
  deriving DecidableEq

/-- The `App` component state: `deck`, `currentCardIndex`, `isFlipped`,
`scriptMode`. -/
structure AppState where
  deck : Option Deck
  currentCardIndex : Nat
  isFlipped : Bool
  scriptMode : ScriptMode
  deriving DecidableEq

/-- `handleDeckGenerated`. -/
def handleDeckGenerated (st : AppState) (newDeck : Deck) : AppState :=
  { st with deck := some newDeck, currentCardIndex := 0, isFlipped := false }

/-- `handleNext`: guarded on a loaded deck, resets the flip and advances the
index by one modulo the card count. -/
def handleNext (st : AppState) : AppState :=
  match st.deck with
  | none => st
  | some d =>
      { st with isFlipped := false,
                currentCardIndex := (st.currentCardIndex + 1) % d.cards.length }

/-- `handlePrev`: the source computes `(prev - 1 + deck.cards.length) %
deck.cards.length`; for a loaded deck with at least one card this equals the
natural-number form below. -/
def handlePrev (st : AppState) : AppState :=
  match st.deck with
  | none => st
  | some d =>
      { st with isFlipped := false,
                currentCardIndex :=
                  (st.currentCardIndex + d.cards.length - 1) % d.cards.length }

/-- `handleFlip`. -/
def handleFlip (st : AppState) : AppState :=
  { st with isFlipped := !st.isFlipped }

/-- `toggleScriptMode`. -/
def toggleScriptMode (st : AppState) : AppState :=
  { st with scriptMode :=
      match st.scriptMode with
      | .simplified => .traditional
      | .traditional => .simplified }

/-! ## Entry points and callback wiring -/

/-- Result of the suspending step of an ingestion action: the file read or
the URL fetch either produced the payload text or failed. -/
inductive TransportResult where
  | ok (content : String)
  | failed

/-- The three ingestion entry points of the current DeckGenerator. -/
inductive IngestAction where
  | uploadFile (read : TransportResult) (json : Option Js)
  | fetchUrl (fetch : TransportResult) (json : Option Js)
  | manualSubmit (input : String)

/-- Outcome of one user-triggered ingestion action: `handleFileUpload` and
`handleUrlSubmit` surface a transport failure as their own message and
otherwise run `processContent`; `handleManualSubmit` returns early on blank
input and otherwise calls the generation client directly. -/
def runIngest (act : IngestAction) (gen : GenOutcome) (now : Nat) : PCOut :=
  match act with
  | .uploadFile .failed _ => ⟨none, false, false, some fileReadFailedMsg⟩
  | .uploadFile (.ok content) json => processContent content json gen now
  | .fetchUrl .failed _ => ⟨none, false, false, some fetchFailedMsg⟩
  | .fetchUrl (.ok content) json => processContent content json gen now
  | .manualSubmit input =>
      if isBlank input then ⟨none, false, false, none⟩
      else runGeneration generateFailedMsg gen

/-- Call-site wiring of the `onDeckGenerated` callback: it runs exactly when
the processor delivered a deck value. -/
def applyDelivered (st : AppState) (out : PCOut)
    (load : AppState → Js → AppState) : AppState :=
  match out.delivered with
  | some d => load st d
  | none => st

/-! ## Sample values for concrete evaluations -/

def sampleExample : Example := ⟨"esA", "etA", some "epA", "eeA"⟩

def sampleCard : FlashcardData := ⟨"id-a", "sA", "tA", "pA", "eA", [sampleExample]⟩

def sampleDeck : Deck := ⟨"Sample", [sampleCard]⟩

def sampleState : AppState := ⟨some sampleDeck, 0, false, .simplified⟩

/-! ## Lemmas: object fields -/

theorem lookupField_setField_self (fs : List (String × Js)) (k : String) (v : Js) :
    lookupField (setField fs k v) k = some v := by
  induction fs with
  | nil => simp [setField, lookupField]
  | cons hd tl ih =>
      obtain ⟨k', w⟩ := hd
      by_cases h : k' = k
      · simp [setField, h, lookupField]
      · simp [setField, h, lookupField, ih]

theorem lookupField_setField_ne (fs : List (String × Js)) (k k' : String) (v : Js)
    (h : k' ≠ k) : lookupField (setField fs k' v) k = lookupField fs k := by
  induction fs with
  | nil => simp [setField, lookupField, h]
  | cons hd tl ih =>
      obtain ⟨k'', w⟩ := hd
      by_cases h2 : k'' = k'
      · subst h2
        simp [setField, lookupField, h]
      · by_cases h3 : k'' = k
        · simp [setField, h2, lookupField, h3, Ne.symm h]
        · simp [setField, h2, lookupField, h3, ih]

theorem getField_obj (fs : List (String × Js)) (k : String) :
    getField (.obj fs) k = (lookupField fs k).getD .undefined := rfl

/-! ## Lemmas: decimal strings are injective -/

theorem digitsFuel_eq_digits (fuel : Nat) :
    ∀ n : Nat, n ≤ fuel → digitsFuel fuel n = Nat.digits 10 n := by
  induction fuel with
  | zero =>
      intro n hn
      interval_cases n
      simp [digitsFuel]
  | succ fuel ih =>
      intro n hn
      by_cases hz : n = 0
      · simp [digitsFuel, hz]
      · have hpos : 0 < n := Nat.pos_of_ne_zero hz
        have hdiv : n / 10 ≤ fuel := by
          have : n / 10 < n := Nat.div_lt_self hpos (by norm_num)
          omega
        rw [digitsFuel, if_neg hz, ih _ hdiv, Nat.digits_def' (by norm_num : 1 < 10) hpos]

theorem digitsB10_eq_digits (n : Nat) : digitsB10 n = Nat.digits 10 n :=
  digitsFuel_eq_digits n n le_rfl

theorem digitVal_digitChar : ∀ d : Nat, d < 10 → digitVal (Nat.digitChar d) = d := by
  decide

theorem nonzero_digits_ne_zero_str (n : Nat) (hn : n ≠ 0) :
    ((digitsB10 n).map Nat.digitChar).reverse ≠ String.data "0" := by
  intro habs
  rw [digitsB10_eq_digits n] at habs
  have hof := Nat.ofDigits_digits 10 n
  cases hl : Nat.digits 10 n with
  | nil =>
      rw [hl] at habs
      simp at habs
  | cons d tl =>
      rw [hl] at habs
      have hlen := congrArg List.length habs
      simp at hlen
      subst hlen
      simp at habs
      have hd10 : d < 10 :=
        Nat.digits_lt_base (by norm_num) (by rw [hl]; exact List.mem_cons_self d [])
      have hd0 : d = 0 := by
        have h0 := digitVal_digitChar d hd10
        rw [habs] at h0
        simpa [digitVal] using h0.symm
      rw [hl, hd0] at hof
      simp [Nat.ofDigits] at hof
      exact hn hof.symm

theorem natStr_injective : ∀ m n : Nat, natStr m = natStr n → m = n := by
  intro m n h
  unfold natStr at h
  by_cases hm : m = 0 <;> by_cases hn : n = 0
  · omega
  · rw [if_pos hm, if_neg hn] at h
    have hd := congrArg String.data h
    exact absurd hd.symm (nonzero_digits_ne_zero_str n hn)
  · rw [if_neg hm, if_pos hn] at h
    have hd := congrArg String.data h
    exact absurd hd (nonzero_digits_ne_zero_str m hm)
  · rw [if_neg hm, if_neg hn] at h
    have hd := congrArg String.data h
    have hrev : ((digitsB10 m).map Nat.digitChar).reverse =
        ((digitsB10 n).map Nat.digitChar).reverse := hd
    have hmap := List.reverse_injective hrev
    rw [digitsB10_eq_digits, digitsB10_eq_digits] at hmap
    have hval := congrArg (List.map digitVal) hmap
    rw [List.map_map, List.map_map] at hval
    have hid : ∀ l : List Nat, (∀ x ∈ l, x < 10) →
        l.map (digitVal ∘ Nat.digitChar) = l := by
      intro l hb
      have : l.map (digitVal ∘ Nat.digitChar) = l.map id := by
        apply List.map_congr_left
        intro a ha
        exact digitVal_digitChar a (hb a ha)
      simpa using this
    rw [hid _ (fun x hx => Nat.digits_lt_base (by norm_num) hx),
        hid _ (fun x hx => Nat.digits_lt_base (by norm_num) hx)] at hval
    have := congrArg (Nat.ofDigits 10) hval
    rwa [Nat.ofDigits_digits, Nat.ofDigits_digits] at this

theorem string_data_append (s t : String) : (s ++ t).data = s.data ++ t.data := by
  cases s
  cases t
  rfl

theorem string_append_right_inj {p s t : String} (h : p ++ s = p ++ t) : s = t := by
  have hd := congrArg String.data h
  rw [string_data_append, string_data_append] at hd
  have h2 := List.append_cancel_left hd
  cases s
  cases t
  exact congrArg String.mk h2

theorem natStr_suffix_inj (p : String) {i j : Nat}
    (h : p ++ natStr i = p ++ natStr j) : i = j :=
  natStr_injective i j (string_append_right_inj h)

theorem genCardId_inj (now : Nat) {i j : Nat}
    (h : genCardId now i = genCardId now j) : i = j :=
  natStr_suffix_inj ("card-" ++ natStr now ++ "-") h

theorem importedId_inj (now : Nat) {i j : Nat}
    (h : importedId now i = importedId now j) : i = j :=
  natStr_suffix_inj ("imported-" ++ natStr now ++ "-") h

/-! ## Lemmas: session state machine -/

theorem handleNext_deck (st : AppState) : (handleNext st).deck = st.deck := by
  cases hd : st.deck <;> simp [handleNext, hd]

theorem handlePrev_deck (st : AppState) : (handlePrev st).deck = st.deck := by
  cases hd : st.deck <;> simp [handlePrev, hd]

theorem iterate_handleNext (st : AppState) (d : Deck) (hd : st.deck = some d)
    (hlt : st.currentCardIndex < d.cards.length) :
    ∀ k : Nat, (handleNext^[k] st).deck = some d ∧
      (handleNext^[k] st).currentCardIndex =
        (st.currentCardIndex + k) % d.cards.length := by
  intro k
  induction k with
  | zero =>
      refine ⟨by simpa using hd, ?_⟩
      simp [Nat.mod_eq_of_lt hlt]
  | succ k ih =>
      obtain ⟨ihd, ihi⟩ := ih
      rw [Function.iterate_succ_apply']
      have harith : ((st.currentCardIndex + k) % d.cards.length + 1) % d.cards.length
          = (st.currentCardIndex + (k + 1)) % d.cards.length := by
        rw [Nat.mod_add_mod, Nat.add_assoc]
      refine ⟨?_, ?_⟩
      · rw [handleNext_deck]
        exact ihd
      · simp [handleNext, ihd, ihi, harith]

theorem iterate_handlePrev (st : AppState) (d : Deck) (hd : st.deck = some d)
    (hlt : st.currentCardIndex < d.cards.length) :
    ∀ k : Nat, (handlePrev^[k] st).deck = some d ∧
      (handlePrev^[k] st).currentCardIndex =
        (st.currentCardIndex + k * (d.cards.length - 1)) % d.cards.length := by
  have hlen : 1 ≤ d.cards.length := Nat.lt_of_le_of_lt (Nat.zero_le _) hlt
  intro k
  induction k with
  | zero =>
      refine ⟨by simpa using hd, ?_⟩
      simp [Nat.mod_eq_of_lt hlt]
  | succ k ih =>
      obtain ⟨ihd, ihi⟩ := ih
      rw [Function.iterate_succ_apply']
      have harith : ((st.currentCardIndex + k * (d.cards.length - 1)) % d.cards.length
            + d.cards.length - 1) % d.cards.length
          = (st.currentCardIndex + (k + 1) * (d.cards.length - 1)) % d.cards.length := by
        have h1 : (st.currentCardIndex + k * (d.cards.length - 1)) % d.cards.length
              + d.cards.length - 1
            = (st.currentCardIndex + k * (d.cards.length - 1)) % d.cards.length
              + (d.cards.length - 1) := by omega
        rw [h1, Nat.mod_add_mod, Nat.succ_mul, ← Nat.add_assoc]
      refine ⟨?_, ?_⟩
      · rw [handlePrev_deck]
        exact ihd
      · simp [handlePrev, ihd, ihi, harith]

/-! ## Claim C5 -/

/-- C5: for every loaded deck with N ≥ 1 cards and every starting index (a
position within the deck), applying `next` N times returns `currentCardIndex`
to its starting value, and applying `previous` N times likewise. -/
theorem c5_next_prev_cycle (st : AppState) (d : Deck) (hd : st.deck = some d)
    (hlt : st.currentCardIndex < d.cards.length) :
    (handleNext^[d.cards.length] st).currentCardIndex = st.currentCardIndex ∧
    (handlePrev^[d.cards.length] st).currentCardIndex = st.currentCardIndex := by
  constructor
  · rw [(iterate_handleNext st d hd hlt d.cards.length).2, Nat.add_mod_right,
        Nat.mod_eq_of_lt hlt]
  · rw [(iterate_handlePrev st d hd hlt d.cards.length).2,
        Nat.add_mul_mod_self_left, Nat.mod_eq_of_lt hlt]

theorem c5_next_prev_cycle_witness :
    sampleState.deck = some sampleDeck ∧
    sampleState.currentCardIndex < sampleDeck.cards.length ∧
    (handleNext^[sampleDeck.cards.length] sampleState).currentCardIndex =
      sampleState.currentCardIndex ∧
    (handlePrev^[sampleDeck.cards.length] sampleState).currentCardIndex =
      sampleState.currentCardIndex := by
  refine ⟨rfl, by decide, ?_, ?_⟩
  · exact (c5_next_prev_cycle sampleState sampleDeck rfl (by decide)).1
  · exact (c5_next_prev_cycle sampleState sampleDeck rfl (by decide)).2

/-! ## Claim C6 -/

/-- C6: from every session state (a loaded deck), `flip` applied twice
restores the state, and `next`/`previous` reset `isFlipped` to false
regardless of its prior value. -/
theorem c6_flip_twice_next_resets (st : AppState) (d : Deck)
    (hd : st.deck = some d) :
    handleFlip (handleFlip st) = st ∧
    (handleNext st).isFlipped = false ∧
    (handlePrev st).isFlipped = false := by
  refine ⟨?_, ?_, ?_⟩
  · obtain ⟨dk, i, f, s⟩ := st
    simp [handleFlip]
  · simp [handleNext, hd]
  · simp [handlePrev, hd]

theorem c6_flip_twice_next_resets_witness :
    (AppState.mk (some sampleDeck) 0 true ScriptMode.simplified).deck = some sampleDeck ∧
    (handleFlip (handleFlip (AppState.mk (some sampleDeck) 0 true ScriptMode.simplified)) =
      AppState.mk (some sampleDeck) 0 true ScriptMode.simplified ∧
     (handleNext (AppState.mk (some sampleDeck) 0 true ScriptMode.simplified)).isFlipped = false ∧
     (handlePrev (AppState.mk (some sampleDeck) 0 true ScriptMode.simplified)).isFlipped = false) :=
  ⟨rfl, c6_flip_twice_next_resets _ sampleDeck rfl⟩

/-! ## Claim C9 -/

/-- C9: `toggleScript` flips `scriptPreference` between the two script modes,
leaves `currentCardIndex` and the loaded deck unchanged, and applying it
twice restores the original preference. -/
theorem c9_toggleScript_frame (st : AppState) :
    (toggleScriptMode st).currentCardIndex = st.currentCardIndex ∧
    (toggleScriptMode st).deck = st.deck ∧
    toggleScriptMode (toggleScriptMode st) = st ∧
    (toggleScriptMode st).scriptMode ≠ st.scriptMode := by
  obtain ⟨dk, i, f, s⟩ := st
  cases s <;> simp [toggleScriptMode]

/-! ## Lemmas: JavaScript `||` -/

theorem jsOr_of_truthy {a : Js} (h : truthy a = true) (b : Js) : jsOr a b = a := by
  simp [jsOr, h]

theorem jsOr_of_falsy {a : Js} (h : truthy a = false) (b : Js) : jsOr a b = b := by
  simp [jsOr, h]

theorem jsOr_undef (b : Js) : jsOr Js.undefined b = b := rfl

theorem jsOr_str_empty (v : String) : jsOr (Js.str v) (Js.str "") = Js.str v := by
  by_cases hv : v = "" <;> simp [jsOr, truthy, hv]

/-! ## Claim C10 -/

/-- C10: an empty or whitespace-only payload (which does not parse as JSON)
makes `processContent` surface an error and return false without ever calling
the generation client. -/
theorem c10_blank_content_no_generation (content : String) (gen : GenOutcome)
    (now : Nat) (hws : isBlank content = true) :
    processContent content none gen now =
      ⟨none, false, false, some processFailedMsg⟩ := by
  simp [processContent, fallThroughPC, hws]

theorem c10_blank_content_no_generation_witness :
    isBlank "   " = true ∧
    processContent "   " none GenOutcome.failure 0 =
      ⟨none, false, false, some processFailedMsg⟩ :=
  ⟨by decide, c10_blank_content_no_generation "   " GenOutcome.failure 0 (by decide)⟩

/-! ## Claim C2 -/

/-- C2 counterexample: the payload `"\x7b\x7d"` parses to an object with no
`cards` array, yet `processContent` hands the raw text to the generation
client (`aiCalled` is true), contradicting the claim that no
generation-client call is made. -/
theorem c2_counterexample :
    isArr (getField (Js.obj []) "cards") = false ∧
    (processContent "\x7b\x7d" (some (Js.obj []))
        (GenOutcome.success (Js.obj [])) 0).aiCalled = true := by
  constructor
  · rfl
  · decide

/-- C2 amended: a JSON object without a `cards` array is a classification
failure with no generation call in `processJsonContent` (error message, no
delivery, no AI call); `processContent`, by contrast, falls through and hands
such a payload to list-based generation. -/
theorem c2_object_without_cards (fields : List (String × Js)) (gen : GenOutcome)
    (now : Nat) (content : String)
    (hcards : isArr (getField (Js.obj fields) "cards") = false)
    (hcontent : isBlank content = false) :
    (processJsonContent (some (Js.obj fields)) gen now).aiCalled = false ∧
    (processJsonContent (some (Js.obj fields)) gen now).delivered = none ∧
    (processJsonContent (some (Js.obj fields)) gen now).errorMsg = some invalidJsonMsg ∧
    (processContent content (some (Js.obj fields)) gen now).aiCalled = true := by
  have hvalid : isValidDeck (Js.obj fields) = false := by
    simp [isValidDeck, hcards]
  have hgen : (runGeneration processFailedMsg gen).aiCalled = true := by
    cases gen <;> rfl
  refine ⟨?_, ?_, ?_, ?_⟩
  · simp [processJsonContent, hvalid]
  · simp [processJsonContent, hvalid]
  · simp [processJsonContent, hvalid]
  · simp [processContent, hvalid, truthy, fallThroughPC, hcontent, hgen]

theorem c2_object_without_cards_witness :
    isArr (getField (Js.obj [("title", Js.str "t")]) "cards") = false ∧
    isBlank "nihao" = false ∧
    ((processJsonContent (some (Js.obj [("title", Js.str "t")])) GenOutcome.failure 0).aiCalled = false ∧
     (processJsonContent (some (Js.obj [("title", Js.str "t")])) GenOutcome.failure 0).delivered = none ∧
     (processJsonContent (some (Js.obj [("title", Js.str "t")])) GenOutcome.failure 0).errorMsg = some invalidJsonMsg ∧
     (processContent "nihao" (some (Js.obj [("title", Js.str "t")])) GenOutcome.failure 0).aiCalled = true) :=
  ⟨rfl, by decide,
   c2_object_without_cards [("title", Js.str "t")] GenOutcome.failure 0 "nihao" rfl (by decide)⟩

/-! ## Claim C7 -/

theorem processContent_err_no_delivery (content : String) (json : Option Js)
    (gen : GenOutcome) (now : Nat)
    (h : (processContent content json gen now).errorMsg.isSome = true) :
    (processContent content json gen now).delivered = none := by
  revert h
  generalize hout : processContent content json gen now = out
  unfold processContent fallThroughPC runGeneration at hout
  repeat' split at hout
  all_goals rw [← hout]
  all_goals intro h
  all_goals first
    | rfl
    | (exfalso; simp at h)

/-- C7: every failing ingestion action (classification, generation, file
read, or fetch failure) is surfaced only as an error message: no deck value
is delivered, so the `onDeckGenerated` callback never runs and the prior
application state is untouched. -/
theorem c7_failure_preserves_state (act : IngestAction) (gen : GenOutcome)
    (now : Nat) (hfail : (runIngest act gen now).errorMsg.isSome = true) :
    (runIngest act gen now).delivered = none ∧
    ∀ (st : AppState) (load : AppState → Js → AppState),
      applyDelivered st (runIngest act gen now) load = st := by
  have hnone : (runIngest act gen now).delivered = none := by
    cases act with
    | uploadFile read json =>
        cases read with
        | failed => rfl
        | ok content => exact processContent_err_no_delivery content json gen now hfail
    | fetchUrl fetch json =>
        cases fetch with
        | failed => rfl
        | ok content => exact processContent_err_no_delivery content json gen now hfail
    | manualSubmit input =>
        by_cases hb : isBlank input = true
        · simp [runIngest, hb]
        · cases gen with
          | success d =>
              exfalso
              simp [runIngest, hb, runGeneration] at hfail
          | failure => simp [runIngest, hb, runGeneration]
  exact ⟨hnone, fun st load => by simp [applyDelivered, hnone]⟩

theorem c7_failure_preserves_state_witness :
    (runIngest (.manualSubmit "hello") GenOutcome.failure 0).errorMsg.isSome = true ∧
    (runIngest (.manualSubmit "hello") GenOutcome.failure 0).delivered = none ∧
    applyDelivered sampleState (runIngest (.manualSubmit "hello") GenOutcome.failure 0)
      (fun _ _ => AppState.mk none 7 true ScriptMode.traditional) = sampleState :=
  ⟨by decide,
   (c7_failure_preserves_state (.manualSubmit "hello") GenOutcome.failure 0 (by decide)).1,
   (c7_failure_preserves_state (.manualSubmit "hello") GenOutcome.failure 0 (by decide)).2
     sampleState (fun _ _ => AppState.mk none 7 true ScriptMode.traditional)⟩

/-! ## Claim C3 -/

theorem isStr_eq_true_iff (v : Js) : isStr v = true ↔ ∃ s, v = Js.str s := by
  cases v <;> simp [isStr]

theorem isArr_eq_true_iff (v : Js) : isArr v = true ↔ ∃ xs, v = Js.arr xs := by
  cases v <;> simp [isArr]

/-- C3 counterexample: the validator accepts a deck whose only card is the
empty object, which lacks every per-card field the claim says is required. -/
theorem c3_counterexample :
    isValidDeck (Js.obj [("title", Js.str "t"), ("cards", Js.arr [Js.obj []])]) = true ∧
    conformsCanonicalDeck
      (Js.obj [("title", Js.str "t"), ("cards", Js.arr [Js.obj []])]) = false := by
  constructor <;> rfl

/-- C3 amended: `isValidDeck` accepts a parsed value if and only if it is a
non-null object with a string `title` field and an array `cards` field; it
never inspects the individual cards. -/
theorem c3_validator_shallow (j : Js) :
    isValidDeck j = true ↔
      ((∃ fs, j = Js.obj fs) ∧ (∃ t, getField j "title" = Js.str t) ∧
       (∃ cs, getField j "cards" = Js.arr cs)) := by
  cases j <;>
    simp [isValidDeck, typeofObject, isNull, getField, isStr_eq_true_iff, isArr_eq_true_iff]

/-! ## Claim C4 -/

/-- C4: an example record carrying only an undifferentiated `chinese` text
field (no truthy `simplified`/`traditional` text) is normalized by copying
that value into both `simplified` and `traditional`, so the two are
identical. -/
theorem c4_legacy_chinese_duplicated (ex : Js) (v : String)
    (hs : truthy (getField ex "simplified") = false)
    (ht : truthy (getField ex "traditional") = false)
    (hc : getField ex "chinese" = Js.str v) :
    (normalizeExample ex).map (fun n => getField n "simplified") = some (Js.str v) ∧
    (normalizeExample ex).map (fun n => getField n "traditional") = some (Js.str v) := by
  cases ex with
  | obj fs =>
      have hX : jsOr (getField (Js.obj fs) "simplified")
          (jsOr (getField (Js.obj fs) "chinese") (Js.str "")) = Js.str v := by
        rw [jsOr_of_falsy hs, hc, jsOr_str_empty]
      have hY : jsOr (getField (Js.obj fs) "traditional")
          (jsOr (getField (Js.obj fs) "chinese") (Js.str "")) = Js.str v := by
        rw [jsOr_of_falsy ht, hc, jsOr_str_empty]
      constructor
      · simp [normalizeExample, isNullish, getField, lookupField]
        exact hX
      · simp [normalizeExample, isNullish, getField, lookupField]
        exact hY
  | undefined => simp [getField] at hc
  | null => simp [getField] at hc
  | bool b => simp [getField] at hc
  | num n => simp [getField] at hc
  | str s => simp [getField] at hc
  | arr xs => simp [getField] at hc

theorem c4_legacy_chinese_duplicated_witness :
    truthy (getField (Js.obj [("chinese", Js.str "zh"), ("english", Js.str "en")]) "simplified") = false ∧
    truthy (getField (Js.obj [("chinese", Js.str "zh"), ("english", Js.str "en")]) "traditional") = false ∧
    getField (Js.obj [("chinese", Js.str "zh"), ("english", Js.str "en")]) "chinese" = Js.str "zh" ∧
    ((normalizeExample (Js.obj [("chinese", Js.str "zh"), ("english", Js.str "en")])).map
        (fun n => getField n "simplified") = some (Js.str "zh") ∧
     (normalizeExample (Js.obj [("chinese", Js.str "zh"), ("english", Js.str "en")])).map
        (fun n => getField n "traditional") = some (Js.str "zh")) :=
  ⟨rfl, rfl, rfl,
   c4_legacy_chinese_duplicated (Js.obj [("chinese", Js.str "zh"), ("english", Js.str "en")])
     "zh" rfl rfl rfl⟩

/-! ## Claim C8 -/

theorem getField_spreadUpdate_one (base : Js) (k : String) (v : Js) :
    getField (spreadUpdate base [(k, v)]) k = v := by
  simp [spreadUpdate, getField_obj, lookupField_setField_self]

theorem getField_spreadUpdate_two_snd (base : Js) (k1 k2 : String) (v1 v2 : Js) :
    getField (spreadUpdate base [(k1, v1), (k2, v2)]) k2 = v2 := by
  simp [spreadUpdate, getField_obj, lookupField_setField_self]

theorem getField_genCard (now i : Nat) (c : Js) :
    getField (genCard now i c) "id" = Js.str (genCardId now i) := by
  simp [genCard, getField_spreadUpdate_one]

theorem normalizeCard_some_id (now i : Nat) (c c' : Js)
    (h : normalizeCard now i c = some c') :
    getField c' "id" = jsOr (getField c "id") (Js.str (importedId now i)) := by
  by_cases hn : isNullish c = true
  · simp [normalizeCard, hn] at h
  · rw [normalizeCard, if_neg hn] at h
    obtain ⟨exs, hexs, hc'⟩ := Option.map_eq_some'.mp h
    subst hc'
    exact getField_spreadUpdate_two_snd c "examples" "id" (Js.arr exs) _

/-- C8 counterexample: `parseResponse` recomputes the `id` of a card that
already carries one, contradicting the claim that a card with an `id` keeps
it unchanged. -/
theorem c8_counterexample :
    (parseResponse (Js.obj [("title", Js.str "T"),
        ("cards", Js.arr [Js.obj [("id", Js.str "keep-me")]])]) 0).map
      (fun out => getField out "cards")
      = some (Js.arr [Js.obj [("id", Js.str (genCardId 0 0))]]) ∧
    genCardId 0 0 ≠ "keep-me" := by
  constructor
  · rfl
  · decide

/-- C8 amended: every ingested card carries an `id`. Generation-response
parsing stamps every card with the synthesized `card-now-i` id — overwriting
any id the response already carried — and these are pairwise distinct within
the batch; the JSON-deck import keeps a truthy existing `id` unchanged and
otherwise synthesizes `imported-now-i`, likewise pairwise distinct within the
batch. -/
theorem c8_id_assignment (now i j : Nat) (c c' : Js) (hij : i ≠ j)
    (himp : normalizeCard now i c = some c') :
    getField (genCard now i c) "id" = Js.str (genCardId now i) ∧
    genCardId now i ≠ genCardId now j ∧
    importedId now i ≠ importedId now j ∧
    (truthy (getField c "id") = true → getField c' "id" = getField c "id") ∧
    (truthy (getField c "id") = false → getField c' "id" = Js.str (importedId now i)) := by
  refine ⟨getField_genCard now i c, ?_, ?_, ?_, ?_⟩
  · exact fun h => hij (genCardId_inj now h)
  · exact fun h => hij (importedId_inj now h)
  · intro h
    rw [normalizeCard_some_id now i c c' himp, jsOr_of_truthy h]
  · intro h
    rw [normalizeCard_some_id now i c c' himp, jsOr_of_falsy h]

theorem c8_id_assignment_witness :
    (0 : Nat) ≠ 1 ∧
    normalizeCard 0 0 (Js.obj [("id", Js.str "keep")]) =
      some (Js.obj [("id", Js.str "keep"), ("examples", Js.arr [])]) ∧
    (getField (genCard 0 0 (Js.obj [("id", Js.str "keep")])) "id" = Js.str (genCardId 0 0) ∧
     genCardId 0 0 ≠ genCardId 0 1 ∧
     importedId 0 0 ≠ importedId 0 1 ∧
     (truthy (getField (Js.obj [("id", Js.str "keep")]) "id") = true →
       getField (Js.obj [("id", Js.str "keep"), ("examples", Js.arr [])]) "id" =
         getField (Js.obj [("id", Js.str "keep")]) "id") ∧
     (truthy (getField (Js.obj [("id", Js.str "keep")]) "id") = false →
       getField (Js.obj [("id", Js.str "keep"), ("examples", Js.arr [])]) "id" =
         Js.str (importedId 0 0))) :=
  ⟨by decide, rfl, c8_id_assignment 0 0 1 _ _ (by decide) rfl⟩

/-! ## Claim C1 -/

theorem normalizeExample_exampleToJs (e : Example) :
    normalizeExample (exampleToJs e) = some (normalizedExampleJs e) := by
  obtain ⟨s, t, p, en⟩ := e
  cases p with
  | none =>
      simp [normalizeExample, exampleToJs, normalizedExampleJs, isNullish,
            getField, lookupField, jsOr_undef, jsOr_str_empty]
  | some pv =>
      simp [normalizeExample, exampleToJs, normalizedExampleJs, isNullish,
            getField, lookupField, jsOr_undef, jsOr_str_empty]

theorem decodeExample_normalized (e : Example) :
    decodeExample (normalizedExampleJs e) = some e := by
  obtain ⟨s, t, p, en⟩ := e
  cases p <;> simp [decodeExample, normalizedExampleJs, getField, lookupField]

theorem exampleList_roundTrip (es : List Example) :
    ∃ L, normalizeExampleList (es.map exampleToJs) = some L ∧
      decodeExamples L = some es := by
  induction es with
  | nil => exact ⟨[], rfl, rfl⟩
  | cons e rest ih =>
      obtain ⟨L, hL, hdec⟩ := ih
      refine ⟨normalizedExampleJs e :: L, ?_, ?_⟩
      · simp [normalizeExampleList, normalizeExample_exampleToJs, hL]
      · simp [decodeExamples, decodeExample_normalized, hdec]

theorem card_roundTrip (now i : Nat) (c : FlashcardData) (hid : c.id ≠ "") :
    ∃ cj, normalizeCard now i (cardToJs c) = some cj ∧ decodeCard cj = some c := by
  obtain ⟨L, hL, hdec⟩ := exampleList_roundTrip c.examples
  have hex : normalizeExamples (getField (cardToJs c) "examples") = some L := by
    simp [cardToJs, getField, lookupField, normalizeExamples, hL]
  have htr : truthy (Js.str c.id) = true := by simp [truthy, hid]
  have hgid : getField (cardToJs c) "id" = Js.str c.id := by
    simp [cardToJs, getField, lookupField]
  refine ⟨Js.obj [("id", Js.str c.id), ("simplified", Js.str c.simplified),
      ("traditional", Js.str c.traditional), ("pinyin", Js.str c.pinyin),
      ("english", Js.str c.english), ("examples", Js.arr L)], ?_, ?_⟩
  · rw [normalizeCard, if_neg (by simp [cardToJs, isNullish]), hex]
    simp [spreadUpdate, baseFields, cardToJs, setField, getField, lookupField,
          jsOr_of_truthy htr]
  · simp [decodeCard, getField, lookupField, hdec]

theorem cards_roundTrip (now : Nat) (cs : List FlashcardData)
    (h : ∀ c ∈ cs, c.id ≠ "") :
    ∀ start, ∃ L, normalizeCards now start (cs.map cardToJs) = some L ∧
      decodeCards L = some cs := by
  induction cs with
  | nil =>
      intro start
      exact ⟨[], rfl, rfl⟩
  | cons c rest ih =>
      intro start
      obtain ⟨cj, hcj, hdc⟩ := card_roundTrip now start c (h c (by simp))
      obtain ⟨L, hL, hdec⟩ := ih (fun x hx => h x (by simp [hx])) (start + 1)
      refine ⟨cj :: L, ?_, ?_⟩
      · simp [normalizeCards, hcj, hL]
      · simp [decodeCards, hdc, hdec]

/-- C1 amended: exporting a canonical deck (at least one card, every card id
a nonempty string) through `saveDeck` and importing the text through
`processContent` delivers — with no generation call — a value whose typed
reading is the original deck, ids included. -/
theorem c1_roundTrip (d : Deck) (content : String) (gen : GenOutcome) (now : Nat)
    (_hne : d.cards ≠ []) (hids : ∀ c ∈ d.cards, c.id ≠ "") :
    (processContent content (some (deckToJs d)) gen now).aiCalled = false ∧
    (processContent content (some (deckToJs d)) gen now).ok = true ∧
    (processContent content (some (deckToJs d)) gen now).delivered.bind decodeDeck
      = some d := by
  have htr : truthy (deckToJs d) = true := rfl
  have hvd : isValidDeck (deckToJs d) = true := by
    simp [isValidDeck, deckToJs, typeofObject, isNull, getField, lookupField, isStr, isArr]
  have hcards : getField (deckToJs d) "cards" = Js.arr (d.cards.map cardToJs) := by
    simp [deckToJs, getField, lookupField]
  obtain ⟨L, hL, hdec⟩ := cards_roundTrip now d.cards hids 0
  have hdeck : decodeDeck (spreadUpdate (deckToJs d) [("cards", Js.arr L)]) = some d := by
    have hsp : spreadUpdate (deckToJs d) [("cards", Js.arr L)] =
        Js.obj [("title", Js.str d.title), ("cards", Js.arr L)] := by
      simp [spreadUpdate, baseFields, deckToJs, setField]
    rw [hsp]
    simp [decodeDeck, getField, lookupField, hdec]
  refine ⟨?_, ?_, ?_⟩ <;>
    simp [processContent, htr, hvd, hcards, hL, hdeck]

theorem c1_roundTrip_witness :
    sampleDeck.cards ≠ [] ∧
    (∀ c ∈ sampleDeck.cards, c.id ≠ "") ∧
    ((processContent "x" (some (deckToJs sampleDeck)) GenOutcome.failure 5).aiCalled = false ∧
     (processContent "x" (some (deckToJs sampleDeck)) GenOutcome.failure 5).ok = true ∧
     (processContent "x" (some (deckToJs sampleDeck)) GenOutcome.failure 5).delivered.bind decodeDeck
       = some sampleDeck) :=
  ⟨by decide, by decide,
   c1_roundTrip sampleDeck "x" GenOutcome.failure 5 (by decide) (by decide)⟩

/-- C1 counterexample: a canonical deck whose single card has the empty
string as its id (a falsy value in JavaScript) does not survive the
export-import round trip — the import replaces the id with a synthesized
`imported-0-0` — so the round trip is not the identity for every canonical
deck with ids. -/
theorem c1_counterexample :
    (processContent "x" (some (deckToJs (Deck.mk "T" [FlashcardData.mk "" "s" "t" "p" "e" []])))
        GenOutcome.failure 0).ok = true ∧
    (processContent "x" (some (deckToJs (Deck.mk "T" [FlashcardData.mk "" "s" "t" "p" "e" []])))
        GenOutcome.failure 0).delivered.bind decodeDeck ≠
      some (Deck.mk "T" [FlashcardData.mk "" "s" "t" "p" "e" []]) := by
  constructor
  · decide
  · decide
